import Mathlib

/-!
Shallow embedding of the streaming-response decoder and result-assembly
pipeline of src/cortex_agents.py, and proofs about it.

JSON values are modelled by the inductive type JVal; Python dictionaries
are association lists (JSON object duplicate keys resolve to the last
binding, matching json.loads).  Python code that can raise is embedded in
the Except monad: a raised exception is an Except.error carrying the
exception text.
-/

/-- JSON values as decoded by json.loads: None, bool, number, string,
list, dict.  Numbers are modelled as integers. -/
inductive JVal : Type where
  | null : JVal
  | bool (b : Bool) : JVal
  | num (n : Int) : JVal
  | str (s : String) : JVal
  | arr (xs : List JVal) : JVal
  | obj (m : List (String × JVal)) : JVal

/-- Python dict lookup d.get(k): the last binding of the key wins,
matching how json.loads collapses duplicate keys. -/
def lookupLast : List (String × JVal) → String → Option JVal
  | [], _ => none
  | (k0, v) :: rest, k =>
    match lookupLast rest k with
    | some r => some r
    | none => if k0 = k then some v else none

/-- Python truthiness of a JSON value (bool(v)). -/
def truthy : JVal → Bool
  | .null => false
  | .bool b => b
  | .num n => n != 0
  | .str s => !s.data.isEmpty
  | .arr xs => !xs.isEmpty
  | .obj m => !m.isEmpty

/-- Python iteration over a value: lists yield elements, strings yield
one-character strings, dicts yield their keys; anything else raises
TypeError. -/
def pyIter : JVal → Except String (List JVal)
  | .arr xs => .ok xs
  | .str s => .ok (s.data.map fun c => .str (String.singleton c))
  | .obj m => .ok (m.map fun p => .str p.1)
  | .null => .error "TypeError: NoneType is not iterable"
  | .bool _ => .error "TypeError: bool is not iterable"
  | .num _ => .error "TypeError: int is not iterable"

/-- One citation record appended at lines 100-103 of cortex_agents.py:
source_id and doc_id from s.get, absent fields becoming None. -/
structure Citation : Type where
  source_id : JVal
  doc_id : JVal

/-- The aggregate state of process_sse_response: the three accumulators
text, sql, citations initialised at line 35. -/
structure AggState : Type where
  text : String
  sql : String
  citations : List Citation

/-- The citation records produced from one searchResults list
(lines 98-103): one record per dict entry, non-dict entries skipped. -/
def citsOf (ss : List JVal) : List Citation :=
  ss.filterMap fun s =>
    match s with
    | .obj sm =>
      some ⟨(lookupLast sm "source_id").getD .null, (lookupLast sm "doc_id").getD .null⟩
    | _ => none

/-- Processing of one element of tool_results.content
(lines 80-103 of cortex_agents.py).  text += j.get("text", "") raises
TypeError when the value is not a string, which aborts the whole stream. -/
def processEntry (st : AggState) (r : JVal) : Except String AggState :=
  match r with
  | .obj m =>
    match lookupLast m "type" with
    | some (.str ty) =>
      if ty = "json" then
        match (lookupLast m "json").getD (.obj []) with
        | .obj jm =>
          match (lookupLast jm "text").getD (.str "") with
          | .str frag =>
            let st1 : AggState := ⟨st.text ++ frag, st.sql, st.citations⟩
            let st2 : AggState :=
              match lookupLast jm "sql" with
              | some (.str q) => ⟨st1.text, q, st1.citations⟩
              | _ => st1
            match (lookupLast jm "searchResults").getD (.arr []) with
            | .arr ss => .ok ⟨st2.text, st2.sql, st2.citations ++ citsOf ss⟩
            | _ => .ok st2
          | _ => .error "TypeError: can only concatenate str to str"
        | _ => .ok st
      else .ok st
    | _ => .ok st
  | _ => .ok st

/-- Fold a step function over a list in the Except monad: the first
raised exception aborts the remaining iterations, like a Python for
loop. -/
def foldSteps (step : AggState → α → Except String AggState) :
    AggState → List α → Except String AggState
  | st, [] => .ok st
  | st, x :: xs =>
    match step st x with
    | .ok st1 => foldSteps step st1 xs
    | .error e => .error e

/-- Processing of one element of delta.content
(lines 68-103 of cortex_agents.py).  For tool_results, the expression
tool_results.get("content", []) or [] replaces a falsy value by [] and
then iterates, raising TypeError on a truthy non-iterable. -/
def processItem (st : AggState) (item : JVal) : Except String AggState :=
  match item with
  | .obj m =>
    match lookupLast m "type" with
    | some (.str ty) =>
      if ty = "text" then
        match (lookupLast m "text").getD (.str "") with
        | .str frag => .ok ⟨st.text ++ frag, st.sql, st.citations⟩
        | _ => .error "TypeError: can only concatenate str to str"
      else if ty = "tool_results" then
        match (lookupLast m "tool_results").getD (.obj []) with
        | .obj trm =>
          let c0 := (lookupLast trm "content").getD (.arr [])
          let c1 := if truthy c0 then c0 else .arr []
          match pyIter c1 with
          | .ok rs => foldSteps processEntry st rs
          | .error e => .error e
        | _ => .ok st
      else .ok st
    | _ => .ok st
  | _ => .ok st

/-- Processing of one decoded delta object (lines 64-103):
delta.get("content", []) must be a list, otherwise the frame contributes
nothing. -/
def processDelta (st : AggState) (m : List (String × JVal)) : Except String AggState :=
  match (lookupLast m "content").getD (.arr []) with
  | .arr items => foldSteps processItem st items
  | _ => .ok st

/-- Locating the delta object (lines 54-62): top-level delta if it is a
dict, otherwise data.delta if that is a dict, otherwise the frame is
skipped. -/
def findDelta (evt : JVal) : Option (List (String × JVal)) :=
  match evt with
  | .obj m =>
    match lookupLast m "delta" with
    | some (.obj dm) => some dm
    | _ =>
      match lookupLast m "data" with
      | some (.obj dam) =>
        match lookupLast dam "delta" with
        | some (.obj dm) => some dm
        | _ => none
      | _ => none
  | _ => none

/-- Python str.strip() on the character list: drop whitespace at both
ends. -/
def stripChars (l : List Char) : List Char :=
  ((l.dropWhile Char.isWhitespace).reverse.dropWhile Char.isWhitespace).reverse

/-- Python str.strip() on strings. -/
def pyStrip (s : String) : String :=
  ⟨stripChars s.data⟩

/-- Python str.startswith on character lists. -/
def listStarts : List Char → List Char → Bool
  | _, [] => true
  | [], _ :: _ => false
  | a :: as, b :: bs => a == b && listStarts as bs

/-- The payload of a data: line (line 44): the prefix stripped and the
remainder trimmed. -/
def pyPayload (raw : String) : String :=
  pyStrip ⟨(pyStrip raw).data.drop 5⟩

/-- Processing of one raw line of the stream (lines 37-62 feeding
64-103).  parse stands for json.loads: none models a JSONDecodeError. -/
def processLine (parse : String → Option JVal) (st : AggState) (raw : String) :
    Except String AggState :=
  if raw = "" then .ok st
  else if listStarts (pyStrip raw).data ("data:".data) then
    let payload := pyPayload raw
    if payload = "" ∨ payload = "[DONE]" then .ok st
    else
      match parse payload with
      | none => .ok st
      | some evt =>
        match findDelta evt with
        | some dm => processDelta st dm
        | none => .ok st
  else .ok st

/-- process_sse_response (lines 34-104) over a list of raw lines:
fold every line through the decoder starting from the empty
accumulators. -/
def process_sse_response (parse : String → Option JVal) (lines : List String) :
    Except String AggState :=
  foldSteps (processLine parse) ⟨"", "", []⟩ lines

/-- Concatenation of the images of a list under a list-valued
function. -/
def catMap (f : α → List β) : List α → List β
  | [] => []
  | a :: as => f a ++ catMap f as

/-- Last element of a list, or the default when the list is empty. -/
def lastD : List String → String → String
  | [], d => d
  | a :: as, _ => lastD as a

/-- The effects one tool-result entry has on the sql accumulator and on
the citations accumulator: the sql strings it writes (at most one, only
when the sql field holds a string) and the searchResults lists it
processes. -/
def entryEff (r : JVal) : List String × List (List JVal) :=
  match r with
  | .obj m =>
    match lookupLast m "type" with
    | some (.str ty) =>
      if ty = "json" then
        match (lookupLast m "json").getD (.obj []) with
        | .obj jm =>
          let ws :=
            match lookupLast jm "sql" with
            | some (.str q) => [q]
            | _ => []
          let qs :=
            match (lookupLast jm "searchResults").getD (.arr []) with
            | .arr ss => [ss]
            | _ => []
          (ws, qs)
        | _ => ([], [])
      else ([], [])
    | _ => ([], [])
  | _ => ([], [])

/-- Pointwise concatenation of effect pairs over a list. -/
def effsOf (f : α → List String × List (List JVal)) : List α → List String × List (List JVal)
  | [] => ([], [])
  | a :: as =>
    let e := f a
    let rest := effsOf f as
    (e.1 ++ rest.1, e.2 ++ rest.2)

/-- The effects of one content item. -/
def itemEff (item : JVal) : List String × List (List JVal) :=
  match item with
  | .obj m =>
    match lookupLast m "type" with
    | some (.str ty) =>
      if ty = "text" then ([], [])
      else if ty = "tool_results" then
        match (lookupLast m "tool_results").getD (.obj []) with
        | .obj trm =>
          let c0 := (lookupLast trm "content").getD (.arr [])
          let c1 := if truthy c0 then c0 else .arr []
          match pyIter c1 with
          | .ok rs => effsOf entryEff rs
          | .error _ => ([], [])
        | _ => ([], [])
      else ([], [])
    | _ => ([], [])
  | _ => ([], [])

/-- The effects of one decoded delta. -/
def deltaEff (m : List (String × JVal)) : List String × List (List JVal) :=
  match (lookupLast m "content").getD (.arr []) with
  | .arr items => effsOf itemEff items
  | _ => ([], [])

/-- The effects of one raw line. -/
def lineEff (parse : String → Option JVal) (raw : String) :
    List String × List (List JVal) :=
  if raw = "" then ([], [])
  else if listStarts (pyStrip raw).data ("data:".data) then
    let payload := pyPayload raw
    if payload = "" ∨ payload = "[DONE]" then ([], [])
    else
      match parse payload with
      | none => ([], [])
      | some evt =>
        match findDelta evt with
        | some dm => deltaEff dm
        | none => ([], [])
  else ([], [])

/-- The effects of a whole stream: the ordered list of sql statement
writes and the ordered list of searchResults lists encountered. -/
def sseEff (parse : String → Option JVal) (lines : List String) :
    List String × List (List JVal) :=
  effsOf (lineEff parse) lines

/-- True when an Except value carries a result rather than a raised
exception. -/
def isOkA : Except String AggState → Bool
  | .ok _ => true
  | .error _ => false

/-- Shapes of one tool-result entry on which processEntry cannot raise:
the text field of the json object, when the entry reaches it, must hold
a string. -/
def entrySafe (r : JVal) : Bool :=
  match r with
  | .obj m =>
    match lookupLast m "type" with
    | some (.str ty) =>
      if ty = "json" then
        match (lookupLast m "json").getD (.obj []) with
        | .obj jm =>
          match (lookupLast jm "text").getD (.str "") with
          | .str _ => true
          | _ => false
        | _ => true
      else true
    | _ => true
  | _ => true

/-- Shapes of one content item on which processItem cannot raise:
a text item must carry a string text field, and a tool_results item must
carry an iterable (or falsy) content whose entries are all entrySafe. -/
def itemSafe (item : JVal) : Bool :=
  match item with
  | .obj m =>
    match lookupLast m "type" with
    | some (.str ty) =>
      if ty = "text" then
        match (lookupLast m "text").getD (.str "") with
        | .str _ => true
        | _ => false
      else if ty = "tool_results" then
        match (lookupLast m "tool_results").getD (.obj []) with
        | .obj trm =>
          let c0 := (lookupLast trm "content").getD (.arr [])
          let c1 := if truthy c0 then c0 else .arr []
          match pyIter c1 with
          | .ok rs => rs.all entrySafe
          | .error _ => false
        | _ => true
      else true
    | _ => true
  | _ => true

/-- Shapes of one delta on which processDelta cannot raise. -/
def deltaSafe (m : List (String × JVal)) : Bool :=
  match (lookupLast m "content").getD (.arr []) with
  | .arr items => items.all itemSafe
  | _ => true

/-- The payload execute_sql submits to the statements endpoint
(lines 110-113 of cortex_agents.py): the statement field and the fixed
timeout field. -/
structure SqlPayload : Type where
  statement : String
  timeout : Nat

/-- Python sql.replace with the one-character pattern and the empty
replacement (line 111): every semicolon character is removed. -/
def replaceSemiChars : List Char → List Char
  | [] => []
  | c :: cs => if c = ';' then replaceSemiChars cs else c :: replaceSemiChars cs

/-- The request body built by execute_sql (lines 110-113). -/
def execute_sql_payload (sql : String) : SqlPayload :=
  ⟨⟨replaceSemiChars sql.data⟩, 60⟩

/-- The value execute_sql returns (lines 121-124): on status 200 the
decoded response body (whose decoding itself may raise), otherwise an
error object carrying the raw response text. -/
def execute_sql_result (status : Nat) (bodyJson : Except String JVal) (bodyText : String) :
    Except String JVal :=
  if status = 200 then bodyJson
  else .ok (.obj [("error", .str ("SQL API error: " ++ bodyText))])

/-- A result row object: a Python dict with JSON values as keys and
values, in insertion order. -/
abbrev Row := List (JVal × JVal)

/-- Python equality as used on dict keys, restricted to hashable JSON
scalars: structural, except that booleans equal their numeric values. -/
def keyBeq : JVal → JVal → Bool
  | .null, .null => true
  | .bool a, .bool b => a == b
  | .num a, .num b => a == b
  | .str a, .str b => a == b
  | .bool a, .num n => (if a then (1 : Int) else 0) == n
  | .num n, .bool a => n == (if a then (1 : Int) else 0)
  | _, _ => false

/-- Hashable JSON values: everything except lists and dicts. -/
def hashableKey : JVal → Bool
  | .arr _ => false
  | .obj _ => false
  | _ => true

/-- Python dict assignment d[k] = v: an existing equal key keeps its
position (and its original key object), a new key is appended. -/
def insertKV (m : Row) (k v : JVal) : Row :=
  if m.any fun p => keyBeq p.1 k then
    m.map fun p => if keyBeq p.1 k then (p.1, v) else p
  else m ++ [(k, v)]

/-- dict(pairs): insert the pairs left to right, raising TypeError on an
unhashable key. -/
def dictOfPairsFrom : Row → List (JVal × JVal) → Except String Row
  | acc, [] => .ok acc
  | acc, (k, v) :: ps =>
    if hashableKey k then dictOfPairsFrom (insertKV acc k v) ps
    else .error "TypeError: unhashable type"

/-- dict(pairs) starting from the empty dict. -/
def pyDictOfPairs (ps : List (JVal × JVal)) : Except String Row :=
  dictOfPairsFrom [] ps

/-- Python d[k] on a result row dict. -/
def rowLookup (m : Row) (k : JVal) : Option JVal :=
  (m.find? fun p => keyBeq p.1 k).map fun p => p.2

/-- The value of the last pair of a pair list whose key equals k. -/
def lastVal (ps : List (JVal × JVal)) (k : JVal) : Option JVal :=
  ((ps.filter fun p => keyBeq p.1 k).getLast?).map fun p => p.2

/-- Python .get(k, default) on a JSON value: raises AttributeError
unless the value is a dict. -/
def dictGetD (o : JVal) (k : String) (d : JVal) : Except String JVal :=
  match o with
  | .obj m => .ok ((lookupLast m k).getD d)
  | _ => .error "AttributeError: object has no attribute get"

/-- Python col subscripted with the string name, as in the column
comprehension of line 164. -/
def pySubscriptName (col : JVal) : Except String JVal :=
  match col with
  | .obj m =>
    match lookupLast m "name" with
    | some v => .ok v
    | none => .error "KeyError: name"
  | _ => .error "TypeError: value is not subscriptable by a string"

/-- dict(zip(columns, row)) for one row of data (line 165): zip
truncates to the shorter list; the row itself must be iterable. -/
def buildRow (cols : List JVal) (row : JVal) : Except String Row := do
  let vals ← pyIter row
  pyDictOfPairs (cols.zip vals)

/-- The body of the try block at lines 162-165, given the outcome of the
execute_sql call: extract data and the declared column names, then build
one row dict per data row. -/
def execToRows (exec : Except String JVal) : Except String (List Row) := do
  let results ← exec
  let dataRows ← dictGetD results "data" (.arr [])
  let rsm ← dictGetD results "resultSetMetaData" (.obj [])
  let rowType ← dictGetD rsm "rowType" (.arr [])
  let colObjs ← pyIter rowType
  let cols ← colObjs.mapM pySubscriptName
  let rowVals ← pyIter dataRows
  rowVals.mapM (buildRow cols)

/-- The final response object returned by run_cortex_agents
(lines 172-178). -/
structure Response : Type where
  text : String
  sql : String
  results : Option (List Row)
  results_table : Option String
  citations : List Citation

/-- Python truthiness of a string. -/
def truthyStr (s : String) : Bool :=
  !s.data.isEmpty

/-- The part of run_cortex_agents after the stream has been drained
(lines 158-178), given the aggregated text, sql and citations, the
outcome of the execute_sql call (consulted only when sql is truthy) and
the tabulate rendering function. -/
def run_post (tab : List Row → String) (text sql : String) (citations : List Citation)
    (exec : Except String JVal) : Response :=
  let rt : Option (List Row) × Option String :=
    if truthyStr sql then
      match execToRows exec with
      | .ok rows =>
        (some rows, if rows.isEmpty then none else some (tab rows))
      | .error e =>
        (some [[(.str "error", .str ("SQL execution failed: " ++ e))]],
         some ("SQL execution failed: " ++ e))
    else (none, none)
  ⟨if truthyStr text then text else "No text response generated.",
   if truthyStr sql then sql else "NO_SQL_GENERATED",
   rt.1, rt.2,
   if citations.isEmpty then [] else citations⟩

/-- A delta whose single content item is a tool_results item carrying
one json entry with the given fields: used for concrete streams. -/
def deltaJsonEntry (fields : List (String × JVal)) : List (String × JVal) :=
  [("content", .arr [.obj
    [("type", .str "tool_results"),
     ("tool_results", .obj [("content", .arr
       [.obj [("type", .str "json"), ("json", .obj fields)]])])]])]

/-- An event frame with the given delta at top level. -/
def evtOf (d : List (String × JVal)) : JVal :=
  .obj [("delta", .obj d)]

/-- A concrete stand-in for json.loads mapping four payload tokens to
event frames: two string sql writes, a non-string sql write, and a
searchResults list with one full and one partial record. -/
def parseW (s : String) : Option JVal :=
  if s = "e1" then some (evtOf (deltaJsonEntry [("sql", .str "SELECT A")]))
  else if s = "e2" then some (evtOf (deltaJsonEntry [("sql", .num 5)]))
  else if s = "e3" then some (evtOf (deltaJsonEntry [("sql", .str "SELECT B")]))
  else if s = "e4" then some (evtOf (deltaJsonEntry [("searchResults", .arr
    [.obj [("source_id", .str "a"), ("doc_id", .str "d1")],
     .obj [("source_id", .str "b")]])]))
  else none

/-- A concrete raw stream exercising parseW. -/
def linesW : List String :=
  ["data: e1", "data: e2", "data: e3", "data: e4", "", "data: [DONE]"]

/-- The aggregate state produced by the concrete stream linesW. -/
def outW : AggState :=
  ⟨"", "SELECT B",
   [⟨.str "a", .str "d1"⟩, ⟨.str "b", .null⟩]⟩

/-- A rendering stand-in for tabulate in concrete instantiations. -/
def tabStub : List Row → String :=
  fun _ => ""

/-- True exactly on JSON dicts. -/
def isObjB : JVal → Bool
  | .obj _ => true
  | _ => false

/-- The citation record the specification prescribes for one
searchResults element: the source_id and doc_id fields, absent fields
becoming null. -/
def specRecord : JVal → Citation
  | .obj sm =>
    ⟨(lookupLast sm "source_id").getD .null, (lookupLast sm "doc_id").getD .null⟩
  | _ => ⟨.null, .null⟩

/-- First-biased choice on optional JSON values. -/
def orO : Option JVal → Option JVal → Option JVal
  | some v, _ => some v
  | none, b => b

/-- Normal forms of hashable keys under Python equality: None, an
integer value (booleans collapse onto 0 and 1) or a string. -/
inductive KeyNorm : Type where
  | knull : KeyNorm
  | kint (n : Int) : KeyNorm
  | kstr (s : String) : KeyNorm
deriving DecidableEq

/-- The normal form of a JSON value as a dict key, none when
unhashable. -/
def knorm : JVal → Option KeyNorm
  | .null => some .knull
  | .bool b => some (.kint (if b then 1 else 0))
  | .num n => some (.kint n)
  | .str s => some (.kstr s)
  | .arr _ => none
  | .obj _ => none

theorem lastD_append (x y : List String) (d : String) :
    lastD (x ++ y) d = lastD y (lastD x d) := by
  induction x generalizing d with
  | nil => rfl
  | cons a x ih => simpa [lastD] using ih a

theorem catMap_append (f : α → List β) (x y : List α) :
    catMap f (x ++ y) = catMap f x ++ catMap f y := by
  induction x with
  | nil => rfl
  | cons a x ih => simp [catMap, ih]

theorem truthyStr_true_ne {s : String} (h : truthyStr s = true) : s ≠ "" := by
  intro heq
  subst heq
  exact absurd h (by decide)

theorem truthyStr_of_ne {s : String} (h : s ≠ "") : truthyStr s = true := by
  cases s with
  | mk l =>
    cases l with
    | nil => exact absurd rfl h
    | cons c cs => rfl

theorem replaceSemiChars_eq_filter (l : List Char) :
    replaceSemiChars l = l.filter (fun c => c != ';') := by
  induction l with
  | nil => rfl
  | cons c cs ih =>
    by_cases hc : c = ';'
    · subst hc
      simp [replaceSemiChars, List.filter, ih]
    · have hb : (c != ';') = true := by simp [hc]
      simp [replaceSemiChars, hc, List.filter, ih, hb]

/-- Claim C5: the executor submits the statement with every semicolon
character removed, including semicolons inside quoted string literals
(the removal is character-level, blind to quoting), and the request body
carries the fixed timeout value 60. -/
theorem execute_sql_strips_semicolons (s : String) :
    (execute_sql_payload s).statement.data = s.data.filter (fun c => c != ';')
    ∧ (execute_sql_payload s).timeout = 60 :=
  ⟨replaceSemiChars_eq_filter s.data, rfl⟩

/-- Claim C6: with an empty aggregated statement the executor outcome is
never consulted, results and results_table are absent, sql is the fixed
sentinel; with empty aggregated text the output text is the fixed
placeholder; the output text is never the empty string. -/
theorem empty_sql_and_text_fallbacks (tab : List Row → String) (t : String)
    (cits : List Citation) (e1 e2 : Except String JVal) :
    run_post tab t "" cits e1 = run_post tab t "" cits e2
    ∧ (run_post tab t "" cits e1).results = none
    ∧ (run_post tab t "" cits e1).results_table = none
    ∧ (run_post tab t "" cits e1).sql = "NO_SQL_GENERATED"
    ∧ (∀ s : String, t = "" →
        (run_post tab t s cits e1).text = "No text response generated.")
    ∧ (∀ s : String, (run_post tab t s cits e1).text ≠ "") := by
  refine ⟨rfl, rfl, rfl, rfl, ?_, ?_⟩
  · intro s ht
    subst ht
    simp [run_post, truthyStr]
  · intro s
    by_cases ht : truthyStr t = true
    · simpa [run_post, ht] using truthyStr_true_ne ht
    · simp at ht
      simp [run_post, ht]

/-- Claim C7: when the execute_sql call, or the parsing of its response
inside the try block, raises with message e, the exception is not
propagated: the response still has success shape, results is the
one-element list holding a single record whose error value names the
failure, and results_table is the corresponding error string. -/
theorem executor_exception_downgraded (tab : List Row → String) (t sql : String)
    (cits : List Citation) (exec : Except String JVal) (e : String)
    (hsql : truthyStr sql = true) (he : execToRows exec = .error e) :
    (run_post tab t sql cits exec).results =
      some [[(.str "error", .str ("SQL execution failed: " ++ e))]]
    ∧ (run_post tab t sql cits exec).results_table =
      some ("SQL execution failed: " ++ e) := by
  constructor <;> simp [run_post, hsql, he]

theorem execToRows_errobj (msg : String) :
    execToRows (.ok (.obj [("error", .str msg)])) = .ok [] := rfl

/-- Claim C8, counterexample: on a non-success status the executor
returns the error descriptor, but the final results field is then the
empty list, not null/absent. -/
theorem executor_error_results_not_null :
    execute_sql_result 400 (.ok .null) "boom" =
      .ok (.obj [("error", .str "SQL API error: boom")])
    ∧ (run_post tabStub "t" "SELECT 1" []
        (execute_sql_result 400 (.ok .null) "boom")).results = some []
    ∧ (run_post tabStub "t" "SELECT 1" []
        (execute_sql_result 400 (.ok .null) "boom")).results.isSome = true := by
  exact ⟨rfl, rfl, rfl⟩

/-- Claim C8, amended: on a non-success status handled without an
exception, the executor returns an error descriptor carrying the raw
response text, and the final response then has results equal to the
empty list (not wrapped into a one-row error table) and results_table
still absent. -/
theorem executor_error_passthrough (status : Nat) (bodyJson : Except String JVal)
    (bodyText : String) (tab : List Row → String) (t sql : String)
    (cits : List Citation) (hs : status ≠ 200) (hsql : truthyStr sql = true) :
    execute_sql_result status bodyJson bodyText =
      .ok (.obj [("error", .str ("SQL API error: " ++ bodyText))])
    ∧ (run_post tab t sql cits (execute_sql_result status bodyJson bodyText)).results =
      some []
    ∧ (run_post tab t sql cits
        (execute_sql_result status bodyJson bodyText)).results_table = none := by
  have hres : execute_sql_result status bodyJson bodyText =
      .ok (.obj [("error", .str ("SQL API error: " ++ bodyText))]) := by
    simp [execute_sql_result, hs]
  refine ⟨hres, ?_, ?_⟩ <;>
    simp [run_post, hsql, hres, execToRows_errobj]

/-- Claim C3: a line that is blank, does not carry the data: marker
after trimming, carries an empty or [DONE] payload, carries a payload
json.loads cannot parse, or carries a document in which neither delta
nor data.delta is a dict, contributes nothing to the aggregate state,
raises nothing, and does not abort the processing of the remaining
stream. -/
theorem decoder_skips_bad_lines (parse : String → Option JVal) (st : AggState)
    (raw : String) (rest : List String)
    (h : raw = ""
      ∨ listStarts (pyStrip raw).data ("data:".data) = false
      ∨ pyPayload raw = ""
      ∨ pyPayload raw = "[DONE]"
      ∨ parse (pyPayload raw) = none
      ∨ (∀ evt, parse (pyPayload raw) = some evt → findDelta evt = none)) :
    processLine parse st raw = .ok st
    ∧ foldSteps (processLine parse) st (raw :: rest) =
      foldSteps (processLine parse) st rest := by
  have h1 : processLine parse st raw = .ok st := by
    by_cases hr : raw = ""
    · simp [processLine, hr]
    · by_cases hls : listStarts (pyStrip raw).data ("data:".data) = true
      · by_cases hp : (pyPayload raw = "" ∨ pyPayload raw = "[DONE]")
        · simp [processLine, hr, hls, hp]
        · rcases h with h | h | h | h | h | h
          · exact absurd h hr
          · rw [h] at hls
            exact absurd hls Bool.false_ne_true
          · exact absurd (Or.inl h) hp
          · exact absurd (Or.inr h) hp
          · simp [processLine, hr, hls, hp, h]
          · rcases hpp : parse (pyPayload raw) with _ | evt
            · simp [processLine, hr, hls, hp, hpp]
            · simp [processLine, hr, hls, hp, hpp, h evt hpp]
      · simp at hls
        simp [processLine, hr, hls]
  refine ⟨h1, ?_⟩
  simp [foldSteps, h1]

theorem entry_safe_ok (st : AggState) (r : JVal) (h : entrySafe r = true) :
    isOkA (processEntry st r) = true := by
  cases r
  case obj m =>
    unfold processEntry entrySafe at *
    rcases h1 : lookupLast m "type" with _ | tv <;> simp only [h1] at h ⊢
    · simp [isOkA]
    · cases tv
      case str ty =>
        by_cases hty : ty = "json" <;>
          simp only [hty, ite_true, ite_false] at h ⊢
        · rcases h2 : (lookupLast m "json").getD (.obj []) with _ | _ | _ | _ | _ | jm <;>
            simp only [h2] at h ⊢ <;> try simp [isOkA]
          rcases h3 : (lookupLast jm "text").getD (.str "") with _ | _ | _ | frag | _ | _ <;>
            simp only [h3] at h ⊢ <;>
            try exact absurd h Bool.false_ne_true
          rcases h4 : (lookupLast jm "searchResults").getD (.arr []) with _ | _ | _ | _ | ss | _ <;>
            simp [h4, isOkA]
        · simp [isOkA]
      all_goals simp [isOkA]
  all_goals simp [isOkA, processEntry]

theorem foldSteps_safe (step : AggState → α → Except String AggState)
    (safe : α → Bool)
    (hstep : ∀ st x, safe x = true → isOkA (step st x) = true) :
    ∀ (xs : List α) (st : AggState), xs.all safe = true →
      isOkA (foldSteps step st xs) = true := by
  intro xs
  induction xs with
  | nil => intro st _; rfl
  | cons x xs ih =>
    intro st hall
    simp only [List.all_cons, Bool.and_eq_true] at hall
    have hx := hstep st x hall.1
    rcases hsx : step st x with e | st1
    · rw [hsx] at hx
      exact absurd hx (by simp [isOkA])
    · simp only [foldSteps, hsx]
      exact ih st1 hall.2

theorem item_safe_ok (st : AggState) (item : JVal) (h : itemSafe item = true) :
    isOkA (processItem st item) = true := by
  cases item
  case obj m =>
    unfold processItem itemSafe at *
    rcases h1 : lookupLast m "type" with _ | tv <;> simp only [h1] at h ⊢
    · simp [isOkA]
    · cases tv
      case str ty =>
        by_cases hty : ty = "text" <;>
          simp only [hty, ite_true, ite_false] at h ⊢
        · rcases h2 : (lookupLast m "text").getD (.str "") with _ | _ | _ | frag | _ | _ <;>
            simp only [h2] at h ⊢ <;>
            try exact absurd h Bool.false_ne_true
          simp [isOkA]
        · by_cases hty2 : ty = "tool_results" <;>
            simp only [hty2, ite_true, ite_false] at h ⊢
          · rcases h3 : (lookupLast m "tool_results").getD (.obj []) with _ | _ | _ | _ | _ | trm <;>
              simp only [h3] at h ⊢ <;> try simp [isOkA]
            rcases h4 : pyIter (if truthy ((lookupLast trm "content").getD (.arr []))
                then (lookupLast trm "content").getD (.arr []) else .arr []) with e | rs <;>
              simp only [h4] at h ⊢
            · exact absurd h Bool.false_ne_true
            · exact foldSteps_safe processEntry entrySafe
                (fun st2 x hx => entry_safe_ok st2 x hx) rs st h
          · simp [isOkA]
      all_goals simp [isOkA]
  all_goals simp [isOkA, processItem]

/-- Claim C4, counterexample: a delta whose content item has type text
but a non-string text field makes the fold raise a TypeError, aborting
the whole stream; the defensive checks do not cover this field. -/
theorem delta_fold_can_raise :
    processDelta ⟨"", "", []⟩
      [("content", .arr [.obj [("type", .str "text"), ("text", .num 5)]])] =
    .error "TypeError: can only concatenate str to str" := rfl

/-- Claim C4, amended: folding a decoded delta never raises provided
every text field it appends is a string and every truthy
tool_results.content it iterates is iterable; all other non-conforming
fields are ignored for that field only, without aborting sibling
fields. -/
theorem delta_fold_safe (st : AggState) (m : List (String × JVal))
    (h : deltaSafe m = true) :
    isOkA (processDelta st m) = true := by
  unfold processDelta deltaSafe at *
  rcases h1 : (lookupLast m "content").getD (.arr []) with _ | _ | _ | _ | items | _ <;>
    simp only [h1] at h ⊢ <;> try rfl
  exact foldSteps_safe processItem itemSafe
    (fun st2 x hx => item_safe_ok st2 x hx) items st h

theorem entry_inv (st : AggState) (r : JVal) (st1 : AggState)
    (h : processEntry st r = .ok st1) :
    st1.sql = lastD (entryEff r).1 st.sql
    ∧ st1.citations = st.citations ++ catMap citsOf (entryEff r).2 := by
  cases r
  case obj m =>
    unfold processEntry entryEff at *
    rcases h1 : lookupLast m "type" with _ | tv <;> simp only [h1] at h ⊢
    · simp only [Except.ok.injEq] at h
      subst h
      simp [lastD, catMap]
    · cases tv
      case str ty =>
        by_cases hty : ty = "json" <;>
          simp only [hty, ite_true, ite_false] at h ⊢
        · rcases h2 : (lookupLast m "json").getD (.obj []) with _ | _ | _ | _ | _ | jm <;>
            simp only [h2] at h ⊢ <;>
            try (simp only [Except.ok.injEq] at h; subst h; simp [lastD, catMap])
          rcases h3 : (lookupLast jm "text").getD (.str "") with _ | _ | _ | frag | _ | _ <;>
            simp only [h3] at h ⊢ <;> try exact Except.noConfusion h
          rcases h4 : (lookupLast jm "searchResults").getD (.arr []) with _ | _ | _ | _ | ss | _ <;>
            simp only [h4] at h ⊢ <;>
            rcases h5 : lookupLast jm "sql" with _ | q <;> simp only [h5] at h ⊢ <;>
            first
            | (simp only [Except.ok.injEq] at h; subst h; simp [lastD, catMap]; done)
            | (cases q <;> simp only [Except.ok.injEq] at h <;> subst h <;>
                simp [lastD, catMap])
        · simp only [Except.ok.injEq] at h
          subst h
          simp [lastD, catMap]
      all_goals
        simp only [Except.ok.injEq] at h
        subst h
        simp [lastD, catMap]
  all_goals
    simp only [processEntry, Except.ok.injEq] at h
    subst h
    simp [entryEff, lastD, catMap]

theorem foldSteps_inv (step : AggState → α → Except String AggState)
    (eff : α → List String × List (List JVal))
    (hstep : ∀ st x st1, step st x = .ok st1 →
      st1.sql = lastD (eff x).1 st.sql
      ∧ st1.citations = st.citations ++ catMap citsOf (eff x).2) :
    ∀ (xs : List α) (st st1 : AggState), foldSteps step st xs = .ok st1 →
      st1.sql = lastD (effsOf eff xs).1 st.sql
      ∧ st1.citations = st.citations ++ catMap citsOf (effsOf eff xs).2 := by
  intro xs
  induction xs with
  | nil =>
    intro st st1 h
    unfold foldSteps at h
    simp only [Except.ok.injEq] at h
    subst h
    simp [effsOf, lastD, catMap]
  | cons x xs ih =>
    intro st st1 h
    unfold foldSteps at h
    rcases hx : step st x with e | st2 <;> simp only [hx] at h
    · exact absurd h (by simp)
    · obtain ⟨hs0, hc0⟩ := hstep st x st2 hx
      obtain ⟨hs, hc⟩ := ih st2 st1 h
      constructor
      · rw [hs, hs0]
        simp [effsOf, lastD_append]
      · rw [hc, hc0]
        simp [effsOf, catMap_append, List.append_assoc]

theorem item_inv (st : AggState) (item : JVal) (st1 : AggState)
    (h : processItem st item = .ok st1) :
    st1.sql = lastD (itemEff item).1 st.sql
    ∧ st1.citations = st.citations ++ catMap citsOf (itemEff item).2 := by
  cases item
  case obj m =>
    unfold processItem itemEff at *
    rcases h1 : lookupLast m "type" with _ | tv <;> simp only [h1] at h ⊢
    · simp only [Except.ok.injEq] at h
      subst h
      simp [lastD, catMap]
    · cases tv
      case str ty =>
        by_cases hty : ty = "text" <;>
          simp only [hty, ite_true, ite_false] at h ⊢
        · rcases h2 : (lookupLast m "text").getD (.str "") with _ | _ | _ | frag | _ | _ <;>
            simp only [h2] at h ⊢ <;> try exact Except.noConfusion h
          simp only [Except.ok.injEq] at h
          subst h
          simp [lastD, catMap]
        · by_cases hty2 : ty = "tool_results" <;>
            simp only [hty2, ite_true, ite_false] at h ⊢
          · rcases h3 : (lookupLast m "tool_results").getD (.obj []) with _ | _ | _ | _ | _ | trm <;>
              simp only [h3] at h ⊢ <;>
              try (simp only [Except.ok.injEq] at h; subst h; simp [lastD, catMap])
            rcases h4 : pyIter (if truthy ((lookupLast trm "content").getD (.arr []))
                then (lookupLast trm "content").getD (.arr []) else .arr []) with e | rs <;>
              simp only [h4] at h ⊢
            · exact absurd h (by simp)
            · exact foldSteps_inv processEntry entryEff
                (fun st2 x st3 hx => entry_inv st2 x st3 hx) rs st st1 h
          · simp only [Except.ok.injEq] at h
            subst h
            simp [lastD, catMap]
      all_goals
        simp only [Except.ok.injEq] at h
        subst h
        simp [lastD, catMap]
  all_goals
    simp only [processItem, Except.ok.injEq] at h
    subst h
    simp [itemEff, lastD, catMap]

theorem delta_inv (st : AggState) (m : List (String × JVal)) (st1 : AggState)
    (h : processDelta st m = .ok st1) :
    st1.sql = lastD (deltaEff m).1 st.sql
    ∧ st1.citations = st.citations ++ catMap citsOf (deltaEff m).2 := by
  unfold processDelta deltaEff at *
  rcases h1 : (lookupLast m "content").getD (.arr []) with _ | _ | _ | _ | items | _ <;>
    simp only [h1] at h ⊢ <;>
    try (simp only [Except.ok.injEq] at h; subst h; simp [lastD, catMap])
  exact foldSteps_inv processItem itemEff
    (fun st2 x st3 hx => item_inv st2 x st3 hx) items st st1 h

theorem line_inv (parse : String → Option JVal) (st : AggState) (raw : String)
    (st1 : AggState) (h : processLine parse st raw = .ok st1) :
    st1.sql = lastD (lineEff parse raw).1 st.sql
    ∧ st1.citations = st.citations ++ catMap citsOf (lineEff parse raw).2 := by
  unfold processLine lineEff at *
  by_cases hr : raw = "" <;> simp only [hr, ite_true, ite_false] at h ⊢
  · simp only [Except.ok.injEq] at h
    subst h
    simp [lastD, catMap]
  · by_cases hls : listStarts (pyStrip raw).data ("data:".data) = true <;>
      simp only [hls, Bool.false_eq_true, ite_true, ite_false] at h ⊢
    · by_cases hp : (pyPayload raw = "" ∨ pyPayload raw = "[DONE]")
      · rw [if_pos hp] at h ⊢
        simp only [Except.ok.injEq] at h
        subst h
        simp [lastD, catMap]
      · rw [if_neg hp] at h ⊢
        rcases hpp : parse (pyPayload raw) with _ | evt <;> simp only [hpp] at h ⊢
        · simp only [Except.ok.injEq] at h
          subst h
          simp [lastD, catMap]
        · rcases hfd : findDelta evt with _ | dm <;> simp only [hfd] at h ⊢
          · simp only [Except.ok.injEq] at h
            subst h
            simp [lastD, catMap]
          · exact delta_inv st dm st1 h
    · simp only [Except.ok.injEq] at h
      subst h
      simp [lastD, catMap]

/-- Claim C1: over any stream, the aggregated statement equals the last
string value written through a tool-result entry sql field, in stream
order (the empty initial value when no frame wrote one); entries whose
sql field is not a string contribute no write and never overwrite the
accumulator, because the write list of the stream collects string
values only. -/
theorem sse_sql_last_writer (parse : String → Option JVal) (lines : List String)
    (out : AggState) (h : process_sse_response parse lines = .ok out) :
    out.sql = lastD (sseEff parse lines).1 "" :=
  (foldSteps_inv (processLine parse) (lineEff parse)
    (fun st x st1 hx => line_inv parse st x st1 hx) lines ⟨"", "", []⟩ out h).1

theorem sse_citations_inv (parse : String → Option JVal) (lines : List String)
    (out : AggState) (h : process_sse_response parse lines = .ok out) :
    out.citations = catMap citsOf (sseEff parse lines).2 :=
  (foldSteps_inv (processLine parse) (lineEff parse)
    (fun st x st1 hx => line_inv parse st x st1 hx) lines ⟨"", "", []⟩ out h).2

theorem citsOf_eq_map (ss : List JVal) (h : ss.all isObjB = true) :
    citsOf ss = ss.map specRecord := by
  induction ss with
  | nil => rfl
  | cons s ss ih =>
    rw [List.all_cons, Bool.and_eq_true] at h
    cases s <;> try exact absurd h.1 Bool.false_ne_true
    case obj sm =>
      show specRecord (.obj sm) :: citsOf ss =
        specRecord (.obj sm) :: ss.map specRecord
      rw [ih h.2]

/-- Claim C2: for a well-formed stream, in which every element of every
searchResults list is a dict as the data model prescribes, the output
citations are exactly one record per element of every searchResults
list encountered, absent source_id or doc_id fields becoming null, in
order of appearance across frames and within each list, without
deduplication. -/
theorem sse_citations_per_entry (parse : String → Option JVal) (lines : List String)
    (out : AggState) (h : process_sse_response parse lines = .ok out)
    (hwf : ((sseEff parse lines).2.all fun ss => ss.all isObjB) = true) :
    out.citations = catMap (fun ss => ss.map specRecord) (sseEff parse lines).2 := by
  rw [sse_citations_inv parse lines out h]
  generalize (sseEff parse lines).2 = qs at hwf ⊢
  induction qs with
  | nil => rfl
  | cons ss qs ih =>
    simp only [List.all_cons, Bool.and_eq_true] at hwf
    simp [catMap, citsOf_eq_map ss hwf.1, ih hwf.2]

theorem keyBeq_iff (a b : JVal) :
    keyBeq a b = true ↔ ((knorm a).isSome ∧ knorm a = knorm b) := by
  cases a <;> cases b <;>
    simp [keyBeq, knorm, beq_iff_eq] <;>
    (rename_i x y; cases x <;> cases y <;> simp)

theorem keyBeq_symmT {a b : JVal} (h : keyBeq a b = true) : keyBeq b a = true := by
  rw [keyBeq_iff] at h ⊢
  exact ⟨h.2 ▸ h.1, h.2.symm⟩

theorem keyBeq_transT {a b c : JVal} (h1 : keyBeq a b = true)
    (h2 : keyBeq b c = true) : keyBeq a c = true := by
  rw [keyBeq_iff] at h1 h2 ⊢
  exact ⟨h1.1, h1.2.trans h2.2⟩

theorem bool_not_true {b : Bool} (h : ¬ b = true) : b = false := by
  cases b
  · rfl
  · exact absurd rfl h

theorem rowLookup_replace_miss (acc : Row) (k0 v0 k : JVal)
    (hk : keyBeq k0 k = false) :
    rowLookup (acc.map fun p => if keyBeq p.1 k0 then (p.1, v0) else p) k =
    rowLookup acc k := by
  induction acc with
  | nil => rfl
  | cons p acc ih =>
    simp only [List.map_cons]
    by_cases hp : keyBeq p.1 k = true
    · have hpk0 : keyBeq p.1 k0 = false := by
        apply bool_not_true
        intro hc
        have h2 := keyBeq_transT (keyBeq_symmT hc) hp
        rw [h2] at hk
        exact Bool.false_ne_true hk.symm
      rw [show (if keyBeq p.1 k0 = true then (p.1, v0) else p) = p by
        rw [hpk0]; simp]
      simp only [rowLookup, List.find?, hp]
    · have hp' : keyBeq p.1 k = false := bool_not_true hp
      by_cases hpk0 : keyBeq p.1 k0 = true
      · rw [show (if keyBeq p.1 k0 = true then (p.1, v0) else p) = (p.1, v0) by
          rw [hpk0]; simp]
        simp only [rowLookup, List.find?, hp']
        exact ih
      · have hpk0' : keyBeq p.1 k0 = false := bool_not_true hpk0
        rw [show (if keyBeq p.1 k0 = true then (p.1, v0) else p) = p by
          rw [hpk0']; simp]
        simp only [rowLookup, List.find?, hp']
        exact ih

theorem rowLookup_append_miss (l1 l2 : Row) (k : JVal)
    (h : ∀ p ∈ l1, keyBeq p.1 k = false) :
    rowLookup (l1 ++ l2) k = rowLookup l2 k := by
  induction l1 with
  | nil => rfl
  | cons p l1 ih =>
    have hp := h p (List.mem_cons_self p l1)
    simp only [List.cons_append, rowLookup, List.find?, hp]
    exact ih fun q hq => h q (List.mem_cons_of_mem p hq)

theorem rowLookup_replace_hit (acc : Row) (k0 v0 k : JVal)
    (hkk : keyBeq k0 k = true)
    (hany : (acc.any fun p => keyBeq p.1 k0) = true) :
    rowLookup (acc.map fun p => if keyBeq p.1 k0 then (p.1, v0) else p) k =
    some v0 := by
  induction acc with
  | nil => exact absurd hany Bool.false_ne_true
  | cons p acc ih =>
    simp only [List.map_cons]
    by_cases hpk0 : keyBeq p.1 k0 = true
    · have hpk : keyBeq p.1 k = true := keyBeq_transT hpk0 hkk
      rw [show (if keyBeq p.1 k0 = true then (p.1, v0) else p) = (p.1, v0) by
        rw [hpk0]; simp]
      simp only [rowLookup, List.find?, hpk]
      rfl
    · have hpk0' : keyBeq p.1 k0 = false := bool_not_true hpk0
      have hany' : (acc.any fun p => keyBeq p.1 k0) = true := by
        simp only [List.any_cons, hpk0', Bool.false_or] at hany
        exact hany
      have hpk : keyBeq p.1 k = false := by
        apply bool_not_true
        intro hc
        have h2 := keyBeq_transT hc (keyBeq_symmT hkk)
        rw [h2] at hpk0'
        exact Bool.false_ne_true hpk0'.symm
      rw [show (if keyBeq p.1 k0 = true then (p.1, v0) else p) = p by
        rw [hpk0']; simp]
      simp only [rowLookup, List.find?, hpk]
      exact ih hany'

theorem rowLookup_insert_hit (acc : Row) (k0 v0 k : JVal)
    (hkk : keyBeq k0 k = true) :
    rowLookup (insertKV acc k0 v0) k = some v0 := by
  unfold insertKV
  by_cases hany : (acc.any fun p => keyBeq p.1 k0) = true
  · rw [if_pos hany]
    exact rowLookup_replace_hit acc k0 v0 k hkk hany
  · rw [if_neg hany]
    have hall : ∀ p ∈ acc, keyBeq p.1 k = false := by
      intro p hp
      apply bool_not_true
      intro hc
      have hmem : keyBeq p.1 k0 = true := keyBeq_transT hc (keyBeq_symmT hkk)
      exact hany (List.any_eq_true.mpr ⟨p, hp, hmem⟩)
    rw [rowLookup_append_miss acc [(k0, v0)] k hall]
    simp [rowLookup, List.find?, hkk]

theorem rowLookup_insert_miss (acc : Row) (k0 v0 k : JVal)
    (hk : keyBeq k0 k = false) :
    rowLookup (insertKV acc k0 v0) k = rowLookup acc k := by
  unfold insertKV
  by_cases hany : (acc.any fun p => keyBeq p.1 k0) = true
  · rw [if_pos hany]
    exact rowLookup_replace_miss acc k0 v0 k hk
  · rw [if_neg hany]
    clear hany
    induction acc with
    | nil => simp [rowLookup, List.find?, hk]
    | cons p acc ih =>
      by_cases hp : keyBeq p.1 k = true
      · simp only [List.cons_append, rowLookup, List.find?, hp]
      · have hp' : keyBeq p.1 k = false := bool_not_true hp
        simp only [List.cons_append, rowLookup, List.find?, hp']
        exact ih

theorem getLast?_cons_or (x : α) (l : List α) :
    (x :: l).getLast? =
      match l.getLast? with
      | some y => some y
      | none => some x := by
  cases l with
  | nil => rfl
  | cons y l =>
    rw [List.getLast?_cons_cons]
    rcases hgl : (y :: l).getLast? with _ | z
    · exact absurd (List.getLast?_eq_none_iff.mp hgl) (by simp)
    · simp

theorem lastVal_cons (k0 v0 : JVal) (ps : List (JVal × JVal)) (k : JVal) :
    lastVal ((k0, v0) :: ps) k =
      if keyBeq k0 k = true then orO (lastVal ps k) (some v0)
      else lastVal ps k := by
  unfold lastVal
  by_cases h : keyBeq k0 k = true <;>
    [skip; replace h := bool_not_true h] <;>
    simp only [List.filter_cons, h, ite_true, ite_false]
  · rw [getLast?_cons_or]
    rcases hgl : (ps.filter fun p => keyBeq p.1 k).getLast? with _ | p <;>
      simp [hgl, orO]
  · simp [h]

theorem dictFrom_lookup :
    ∀ (ps : List (JVal × JVal)) (acc m : Row) (k : JVal),
      dictOfPairsFrom acc ps = .ok m →
      rowLookup m k = orO (lastVal ps k) (rowLookup acc k) := by
  intro ps
  induction ps with
  | nil =>
    intro acc m k h
    unfold dictOfPairsFrom at h
    simp only [Except.ok.injEq] at h
    subst h
    simp [lastVal, orO, List.filter]
  | cons p ps ih =>
    intro acc m k h
    obtain ⟨k0, v0⟩ := p
    unfold dictOfPairsFrom at h
    by_cases hh : hashableKey k0 = true
    · rw [if_pos hh] at h
      rw [ih (insertKV acc k0 v0) m k h, lastVal_cons]
      by_cases hk : keyBeq k0 k = true
      · rw [if_pos hk, rowLookup_insert_hit acc k0 v0 k hk]
        rcases lastVal ps k <;> simp [orO]
      · replace hk := bool_not_true hk
        rw [if_neg (by simp [hk]), rowLookup_insert_miss acc k0 v0 k hk]
    · rw [if_neg hh] at h
      exact Except.noConfusion h

theorem pyDict_lookup (ps : List (JVal × JVal)) (m : Row) (k : JVal)
    (h : pyDictOfPairs ps = .ok m) :
    rowLookup m k = lastVal ps k := by
  rw [dictFrom_lookup ps [] m k h]
  rcases lastVal ps k <;> simp [orO, rowLookup, List.find?]

theorem insertKV_length (acc : Row) (k v : JVal) :
    (insertKV acc k v).length ≤ acc.length + 1 := by
  unfold insertKV
  by_cases h : (acc.any fun p => keyBeq p.1 k) = true <;>
    [rw [if_pos h]; rw [if_neg h]] <;> simp

theorem dictFrom_length :
    ∀ (ps : List (JVal × JVal)) (acc m : Row),
      dictOfPairsFrom acc ps = .ok m → m.length ≤ acc.length + ps.length := by
  intro ps
  induction ps with
  | nil =>
    intro acc m h
    unfold dictOfPairsFrom at h
    simp only [Except.ok.injEq] at h
    subst h
    simp
  | cons p ps ih =>
    intro acc m h
    obtain ⟨k0, v0⟩ := p
    unfold dictOfPairsFrom at h
    by_cases hh : hashableKey k0 = true
    · rw [if_pos hh] at h
      have h1 := ih (insertKV acc k0 v0) m h
      have h2 := insertKV_length acc k0 v0
      simp only [List.length_cons]
      omega
    · rw [if_neg hh] at h
      exact Except.noConfusion h

/-- Claim C10: each result row object is dict(zip(columns, row)):
surplus columns or surplus values are silently dropped by zip, a
repeated column name keeps its first position but takes the value of
its last occurrence, and a row object can therefore have fewer keys
than the declared column count. -/
theorem row_zip_semantics :
    (∀ (cols vals : List JVal) (m : Row),
      buildRow cols (.arr vals) = .ok m →
      m.length ≤ min cols.length vals.length)
    ∧ (∀ (cols vals : List JVal),
      buildRow cols (.arr vals) = pyDictOfPairs (cols.zip vals))
    ∧ (∀ (ps : List (JVal × JVal)) (m : Row) (k : JVal),
      pyDictOfPairs ps = .ok m → rowLookup m k = lastVal ps k)
    ∧ buildRow [.str "a", .str "a"] (.arr [.num 1, .num 2]) =
      .ok [(.str "a", .num 2)] := by
  refine ⟨?_, fun cols vals => rfl, pyDict_lookup, rfl⟩
  intro cols vals m h
  have h' : pyDictOfPairs (cols.zip vals) = .ok m := h
  have h1 := dictFrom_length (cols.zip vals) [] m h'
  have h2 : (cols.zip vals).length = min cols.length vals.length :=
    List.length_zip cols vals
  simp only [List.length_nil, Nat.zero_add] at h1
  rw [← h2]
  exact h1

/-- Claim C9: the sql field of the final response is the aggregated
statement verbatim, semicolons included; the semicolon stripping applies
only to the payload submitted to the execute endpoint. -/
theorem reported_sql_verbatim (tab : List Row → String) (t s : String)
    (cits : List Citation) (exec : Except String JVal)
    (hs : truthyStr s = true) :
    (run_post tab t s cits exec).sql = s
    ∧ (execute_sql_payload s).statement.data = s.data.filter (fun c => c != ';') := by
  exact ⟨by simp [run_post, hs], replaceSemiChars_eq_filter s.data⟩

/-- Witness for claim C1: on the concrete stream linesW, in which two
frames write a statement string and one frame writes a non-string sql
value in between, processing succeeds and the aggregated statement is
the last string write. -/
theorem sse_sql_last_writer_witness :
    process_sse_response parseW linesW = .ok outW
    ∧ outW.sql = lastD (sseEff parseW linesW).1 "" :=
  ⟨rfl, sse_sql_last_writer parseW linesW outW rfl⟩

/-- Witness for claim C2: the concrete stream linesW is well formed and
yields exactly one record per searchResults element, the second with a
null doc_id. -/
theorem sse_citations_per_entry_witness :
    (((sseEff parseW linesW).2.all fun ss => ss.all isObjB) = true)
    ∧ outW.citations =
      catMap (fun ss => ss.map specRecord) (sseEff parseW linesW).2 :=
  ⟨rfl, sse_citations_per_entry parseW linesW outW rfl rfl⟩

/-- Witness for claim C3: a data: line whose payload json.loads cannot
parse leaves the state untouched and the rest of the stream is
processed as if the line were absent. -/
theorem decoder_skips_bad_lines_witness :
    processLine parseW ⟨"", "", []⟩ "data: junk" = .ok ⟨"", "", []⟩
    ∧ foldSteps (processLine parseW) ⟨"", "", []⟩ ["data: junk", "data: e1"] =
      foldSteps (processLine parseW) ⟨"", "", []⟩ ["data: e1"] :=
  decoder_skips_bad_lines parseW ⟨"", "", []⟩ "data: junk" ["data: e1"]
    (Or.inr (Or.inr (Or.inr (Or.inr (Or.inl rfl)))))

/-- Witness for claim C4 as amended: a delta whose json entry has a
non-string sql field satisfies the safety condition and folds without
raising, the non-conforming sql field being ignored. -/
theorem delta_fold_safe_witness :
    deltaSafe (deltaJsonEntry [("sql", .num 5)]) = true
    ∧ isOkA (processDelta ⟨"", "", []⟩ (deltaJsonEntry [("sql", .num 5)])) = true :=
  ⟨rfl, delta_fold_safe ⟨"", "", []⟩ (deltaJsonEntry [("sql", .num 5)]) rfl⟩

/-- Witness for claim C6: with empty aggregated text and statement the
output carries both fixed fallbacks and a non-empty text. -/
theorem empty_sql_and_text_fallbacks_witness :
    (run_post tabStub "" "" [] (.error "x")).text = "No text response generated."
    ∧ (run_post tabStub "" "" [] (.error "x")).text ≠ "" :=
  ⟨(empty_sql_and_text_fallbacks tabStub "" [] (.error "x") (.ok .null)).2.2.2.2.1 "" rfl,
   (empty_sql_and_text_fallbacks tabStub "" [] (.error "x") (.ok .null)).2.2.2.2.2 ""⟩

/-- Witness for claim C7: a raising executor on a non-empty statement
yields the one-row error record. -/
theorem executor_exception_downgraded_witness :
    truthyStr "SELECT 1" = true
    ∧ (run_post tabStub "t" "SELECT 1" [] (.error "boom")).results =
      some [[(.str "error", .str "SQL execution failed: boom")]] :=
  ⟨rfl,
   (executor_exception_downgraded tabStub "t" "SELECT 1" [] (.error "boom")
     "boom" rfl rfl).1⟩

/-- Witness for claim C8 as amended: a 500 status yields the error
descriptor, an empty results list and an absent results_table. -/
theorem executor_error_passthrough_witness :
    (run_post tabStub "t" "SELECT 1" []
      (execute_sql_result 500 (.ok .null) "oops")).results = some []
    ∧ (run_post tabStub "t" "SELECT 1" []
      (execute_sql_result 500 (.ok .null) "oops")).results_table = none :=
  ⟨(executor_error_passthrough 500 (.ok .null) "oops" tabStub "t" "SELECT 1" []
      (by decide) rfl).2.1,
   (executor_error_passthrough 500 (.ok .null) "oops" tabStub "t" "SELECT 1" []
      (by decide) rfl).2.2⟩

/-- Witness for claim C9: a statement ending in a semicolon is reported
back verbatim. -/
theorem reported_sql_verbatim_witness :
    (run_post tabStub "t" "SELECT 1;" [] (.error "e")).sql = "SELECT 1;" :=
  (reported_sql_verbatim tabStub "t" "SELECT 1;" [] (.error "e") rfl).1

/-- Witness for claim C10: a row shorter than the column list builds a
dict within the length bound, and a duplicated key reads back the later
value. -/
theorem row_zip_semantics_witness :
    ([(.str "a", .num 1)] : Row).length ≤ min 2 1
    ∧ rowLookup [(.str "a", .num 2)] (.str "a") =
      lastVal [(.str "a", .num 1), (.str "a", .num 2)] (.str "a") :=
  ⟨row_zip_semantics.1 [.str "a", .str "b"] [.num 1] [(.str "a", .num 1)] rfl,
   row_zip_semantics.2.2.1 [(.str "a", .num 1), (.str "a", .num 2)]
     [(.str "a", .num 2)] (.str "a") rfl⟩
